import Mathlib

/-!
A shallow embedding of `include/metalang99/gen.h` (metalang99's code-generation
module) and of the C statement semantics its statement-chaining macros rely on.

A preprocessing "value" `v(...)` is represented by its token list (`Fragment`).
Helpers that gen.h pulls in from headers absent from the sources
(`ML99_variadicsTail`, `ML99_tuple`, `ML99_NAT_EQ`, `ML99_repeat`, the
`ML99_matchWithArgs` list pattern matching, and the non-strict `ML99_PRIV_IF`)
are modelled from the specification, as indicated in their doc comments.
-/

/-- A fragment of generated C source, as a list of tokens. A metalang99 value
`v(...)` is represented directly by its token list; `ML99_EMPTY()` is `[]`,
and `ML99_TERMS(a, b)` is concatenation. -/
abbrev Fragment := List String

/-- Modelled from the spec: `ML99_variadicsTail` (variadics.h is absent from
the sources) drops the leading variadic argument — the Tuple/variadic module
can "drop a fixed number of leading items", "used to strip a leading separator
after recursive assembly". At token level it removes every token up to and
including the first comma. -/
def ML99_variadicsTail (f : Fragment) : Fragment :=
  (f.dropWhile (fun t => t != ",")).drop 1

/-- Modelled from the spec: `ML99_tuple` (tuple.h is absent from the sources)
wraps its argument into a parenthesized group. -/
def ML99_tuple (f : Fragment) : Fragment :=
  "(" :: (f ++ [")"])

/-- Modelled from the spec: `ML99_NAT_EQ` (nat.h is absent from the sources)
is the equality test of the Natural-number module. -/
def ML99_NAT_EQ (a b : Nat) : Bool := a == b

/-- Modelled from the spec: `ML99_INC` (nat.h is absent from the sources) is
the increment of the Natural-number module. -/
def ML99_INC (n : Nat) : Nat := n + 1

/-- Modelled from the spec: `ML99_repeat` (util.h is absent from the sources)
invokes `f` with the counters `0, 1, ..., n - 1` and concatenates the
resulting fragments, the counter-driven traversal of spec 4.3. -/
def ML99_repeat (n : Nat) (f : Nat → Fragment) : Fragment :=
  List.flatten ((List.range n).map f)

/-- `ML99_PRIV_indexedItem_IMPL(i)`, i.e. `v(, _##i)`. -/
def ML99_PRIV_indexedItem (i : Nat) : Fragment :=
  [",", "_" ++ toString i]

/-- The two-state pending term fed to the non-strict conditional: either a
fragment whose rewriting succeeds, or a deliberately invalid fragment whose
rewriting fails (e.g. a rewrite under an out-of-range counter). -/
inductive PendingTerm where
  | ok : Fragment → PendingTerm
  | invalid : PendingTerm
deriving DecidableEq

/-- Rewriting a pending term: an `ok` term reduces to its fragment, an
`invalid` term fails. -/
def rewriteTerm : PendingTerm → Option Fragment
  | PendingTerm.ok f => some f
  | PendingTerm.invalid => none

/-- Modelled from the spec: `ML99_PRIV_IF` (control.h is absent from the
sources) is the non-strict binary branch selection of spec 4.2 and 6: it
first selects one of the two pre-formed branches by the condition and only
the selected branch is then rewritten; the untaken branch is never rewritten. -/
def ML99_PRIV_IF (cond : Bool) (t e : PendingTerm) : Option Fragment :=
  rewriteTerm (if cond then t else e)

/-- `ML99_PRIV_INDEXED_ITEMS(n, empty_case)` at the pending-term level: the
conditional `ML99_PRIV_IF(ML99_NAT_EQ(n, 0), empty_case, <repeat branch>)`
with the two branches supplied as pending terms. -/
def ML99_PRIV_INDEXED_ITEMS_t (n : Nat) (empty_case rep : PendingTerm) : Option Fragment :=
  ML99_PRIV_IF (ML99_NAT_EQ n 0) empty_case rep

/-- `ML99_PRIV_INDEXED_ITEMS(n, empty_case)`: `empty_case` when `n` is zero,
otherwise `ML99_variadicsTail(ML99_repeat_IMPL(n, ML99_PRIV_indexedItem))`. -/
def ML99_PRIV_INDEXED_ITEMS (n : Nat) (empty_case : Fragment) : Fragment :=
  if ML99_NAT_EQ n 0 then empty_case
  else ML99_variadicsTail (ML99_repeat n ML99_PRIV_indexedItem)

/-- `ML99_braced_IMPL(...)`, i.e. `v({__VA_ARGS__})`. -/
def ML99_braced (body : Fragment) : Fragment :=
  "\x7b" :: (body ++ ["\x7d"])

/-- `ML99_indexedInitializerList_IMPL(n)`:
`ML99_braced(ML99_PRIV_INDEXED_ITEMS(n, v(0)))`. -/
def ML99_indexedInitializerList (n : Nat) : Fragment :=
  ML99_braced (ML99_PRIV_INDEXED_ITEMS n ["0"])

/-- `ML99_indexedArgs_IMPL(n)`:
`ML99_PRIV_INDEXED_ITEMS(n, v(ML99_EMPTY()))`. -/
def ML99_indexedArgs (n : Nat) : Fragment :=
  ML99_PRIV_INDEXED_ITEMS n []

/-- `ML99_PRIV_indexedParamsAux_IMPL(type_list, i)`: the list recursion of
`ML99_indexedParams`, written by direct pattern matching on the list (the
dispatch through `ML99_matchWithArgs` lives in list.h, absent from the
sources; Modelled from the spec: `match_list` dispatches on nil/cons with the
running index threaded through every recursive call). The nil clause is
`v(ML99_EMPTY())`; the cons clause is `ML99_TERMS(v(, x _##i), <recurse>)`. -/
def ML99_PRIV_indexedParamsAux : List Fragment → Nat → Fragment
  | [], _ => []
  | x :: xs, i => ([","] ++ x ++ ["_" ++ toString i]) ++ ML99_PRIV_indexedParamsAux xs (ML99_INC i)

/-- `ML99_indexedParams_IMPL(type_list)`:
`ML99_tuple(ML99_PRIV_IF(ML99_IS_NIL(type_list), v(void),
ML99_variadicsTail(ML99_PRIV_indexedParamsAux_IMPL(type_list, 0))))`. -/
def ML99_indexedParams (type_list : List Fragment) : Fragment :=
  ML99_tuple
    (if type_list.isEmpty then ["void"]
     else ML99_variadicsTail (ML99_PRIV_indexedParamsAux type_list 0))

/-- `ML99_PRIV_indexedFieldsAux_IMPL(type_list, i)`: the list recursion of
`ML99_indexedFields`, written by direct pattern matching on the list (the
dispatch through `ML99_matchWithArgs` lives in list.h, absent from the
sources; Modelled from the spec as for `ML99_PRIV_indexedParamsAux`). The nil
clause is `v(ML99_EMPTY())`; the cons clause is
`ML99_TERMS(v(x _##i;), <recurse>)`. -/
def ML99_PRIV_indexedFieldsAux : List Fragment → Nat → Fragment
  | [], _ => []
  | x :: xs, i => (x ++ ["_" ++ toString i, ";"]) ++ ML99_PRIV_indexedFieldsAux xs (ML99_INC i)

/-- `ML99_indexedFields_IMPL(type_list)`:
`ML99_PRIV_indexedFieldsAux_IMPL(type_list, 0)`. -/
def ML99_indexedFields (type_list : List Fragment) : Fragment :=
  ML99_PRIV_indexedFieldsAux type_list 0

/-- `ML99_typedef_IMPL(ident, ...)`, i.e. `v(typedef __VA_ARGS__ ident;)`. -/
def ML99_typedef (ident body : Fragment) : Fragment :=
  "typedef" :: (body ++ ident ++ [";"])

/-- `ML99_struct_IMPL(ident, ...)`, i.e. `v(struct ident{__VA_ARGS__})`. -/
def ML99_struct (ident body : Fragment) : Fragment :=
  "struct" :: (ident ++ ML99_braced body)

/-- `ML99_anonStruct_IMPL(...)`, i.e. `v(struct {__VA_ARGS__})`. -/
def ML99_anonStruct (body : Fragment) : Fragment :=
  "struct" :: ML99_braced body

/-- `ML99_union_IMPL(ident, ...)`, i.e. `v(union ident{__VA_ARGS__})`. -/
def ML99_union (ident body : Fragment) : Fragment :=
  "union" :: (ident ++ ML99_braced body)

/-- `ML99_anonUnion_IMPL(...)`, i.e. `v(union {__VA_ARGS__})`. -/
def ML99_anonUnion (body : Fragment) : Fragment :=
  "union" :: ML99_braced body

/-- `ML99_enum_IMPL(ident, ...)`, i.e. `v(enum ident{__VA_ARGS__})`. -/
def ML99_enum (ident body : Fragment) : Fragment :=
  "enum" :: (ident ++ ML99_braced body)

/-- `ML99_anonEnum_IMPL(...)`, i.e. `v(enum {__VA_ARGS__})`. -/
def ML99_anonEnum (body : Fragment) : Fragment :=
  "enum" :: ML99_braced body

/-- `ML99_braced_ARITY`. -/
def ML99_braced_ARITY : Nat := 1

/-- `ML99_typedef_ARITY`. -/
def ML99_typedef_ARITY : Nat := 2

/-- `ML99_struct_ARITY`. -/
def ML99_struct_ARITY : Nat := 2

/-- `ML99_anonStruct_ARITY`. -/
def ML99_anonStruct_ARITY : Nat := 1

/-- `ML99_union_ARITY`. -/
def ML99_union_ARITY : Nat := 2

/-- `ML99_anonUnion_ARITY`. -/
def ML99_anonUnion_ARITY : Nat := 1

/-- `ML99_enum_ARITY`. -/
def ML99_enum_ARITY : Nat := 2

/-- `ML99_anonEnum_ARITY`. -/
def ML99_anonEnum_ARITY : Nat := 1

/-- Modelled from the spec: the Dispatcher validates the supplied argument
count against the operation's registered arity before rewriting (spec 4.1
and 7); an arity mismatch is a fatal error, modelled as `none`. -/
def dispatch (arity : Nat) (impl : List Fragment → Fragment) (args : List Fragment) :
    Option Fragment :=
  if args.length = arity then some (impl args) else none

/-- Spec-side shape: the positionally indexed parameter fragments
`T_p _p`, with indices starting at `start`, written from the specification
text "(T_0 _0, …, T_{n-1} _{n-1}) with types taken positionally from L". -/
def indexedNames : List Fragment → Nat → List Fragment
  | [], _ => []
  | T :: Ts, p => (T ++ ["_" ++ toString p]) :: indexedNames Ts (p + 1)

/-- Spec-side shape: comma-separated join of fragments, with no leading and
no trailing comma. -/
def commaJoin : List Fragment → Fragment
  | [] => []
  | [f] => f
  | f :: g :: fs => f ++ [","] ++ commaJoin (g :: fs)

/-- Spec-side shape: the i-th positional identifier `_i` as a one-token
fragment. -/
def argName (i : Nat) : Fragment := ["_" ++ toString i]

theorem variadicsTail_comma (rest : Fragment) : ML99_variadicsTail ("," :: rest) = rest := rfl

theorem flatten_comma_eq (f : Fragment) (fs : List Fragment) :
    List.flatten ((f :: fs).map (fun g => "," :: g)) = "," :: commaJoin (f :: fs) := by
  induction fs generalizing f with
  | nil => simp [commaJoin]
  | cons g gs ih =>
    simp only [List.map_cons, List.flatten_cons] at *
    rw [commaJoin]
    simp [ih g]

theorem indexedNames_length (L : List Fragment) (p : Nat) :
    (indexedNames L p).length = L.length := by
  induction L generalizing p with
  | nil => rfl
  | cons T Ts ih => simp [indexedNames, ih]

theorem indexedParamsAux_eq (L : List Fragment) (i : Nat) :
    ML99_PRIV_indexedParamsAux L i =
      List.flatten ((indexedNames L i).map (fun g => "," :: g)) := by
  induction L generalizing i with
  | nil => rfl
  | cons T Ts ih =>
    simp [ML99_PRIV_indexedParamsAux, indexedNames, ML99_INC, ih]

theorem indexedFieldsAux_eq (L : List Fragment) (i : Nat) :
    ML99_PRIV_indexedFieldsAux L i =
      List.flatten ((indexedNames L i).map (fun g => g ++ [";"])) := by
  induction L generalizing i with
  | nil => rfl
  | cons T Ts ih =>
    simp [ML99_PRIV_indexedFieldsAux, indexedNames, ML99_INC, ih]

theorem repeat_indexedItem_eq (n : Nat) :
    ML99_repeat n ML99_PRIV_indexedItem =
      List.flatten (((List.range n).map argName).map (fun g => "," :: g)) := by
  rw [ML99_repeat, List.map_map]
  have h : ML99_PRIV_indexedItem = ((fun g => "," :: g) ∘ argName) := by
    funext i
    rfl
  rw [h]

theorem commaJoin_cons_ex (f : Fragment) (fs : List Fragment) :
    ∃ t, commaJoin (f :: fs) = f ++ t := by
  cases fs with
  | nil => exact ⟨[], by simp [commaJoin]⟩
  | cons g gs => exact ⟨[","] ++ commaJoin (g :: gs), by rw [commaJoin]; simp⟩

/-- C2: for every list `L` of length `n ≥ 0`, `ML99_indexedParams(L)` produces
the parenthesized fragment `(void)` when `n = 0`, and otherwise
`(T_0 _0, ..., T_{n-1} _{n-1})` with the types taken positionally from `L`,
with exactly `n` comma-separated parameters and indices starting at 0. -/
theorem indexedParams_spec_correct (L : List Fragment) :
    (indexedNames L 0).length = L.length ∧
    ML99_indexedParams L =
      (if L.isEmpty then ["(", "void", ")"]
       else "(" :: (commaJoin (indexedNames L 0) ++ [")"])) := by
  refine ⟨indexedNames_length L 0, ?_⟩
  cases L with
  | nil => rfl
  | cons T Ts =>
    rw [ML99_indexedParams, indexedParamsAux_eq, indexedNames, flatten_comma_eq,
      variadicsTail_comma, ML99_tuple]
    simp [indexedNames]

/-- C5: for every list `L` of length `n ≥ 0`, `ML99_indexedFields(L)` produces
the empty fragment when `n = 0`, and otherwise
`T_0 _0; ...; T_{n-1} _{n-1};`, each of the `n` fields terminated by a
semicolon and the types taken positionally from `L`; the empty case performs
no `void` substitution. -/
theorem indexedFields_spec_correct (L : List Fragment) :
    ML99_indexedFields [] = ([] : Fragment) ∧
    ML99_indexedFields L =
      List.flatten ((indexedNames L 0).map (fun g => g ++ [";"])) := by
  exact ⟨rfl, indexedFieldsAux_eq L 0⟩

/-- C4: for every natural `n ≥ 0`, `ML99_indexedArgs(n)` produces exactly `n`
comma-separated items `_0, _1, ..., _{n-1}`, and `ML99_indexedArgs(0)`
produces an empty fragment with no leading or trailing comma. -/
theorem indexedArgs_spec_correct (n : Nat) :
    ML99_indexedArgs n =
      (if n = 0 then [] else commaJoin ((List.range n).map argName)) := by
  rcases n with _ | m
  · rfl
  · rw [ML99_indexedArgs, ML99_PRIV_INDEXED_ITEMS]
    have hne : ML99_NAT_EQ (m + 1) 0 = false := by simp [ML99_NAT_EQ]
    rw [hne, repeat_indexedItem_eq, List.range_succ_eq_map, List.map_cons,
      flatten_comma_eq, variadicsTail_comma]
    simp

/-- C3: for every natural `n ≥ 0`, `ML99_indexedInitializerList(n)` produces
`{ _0, ..., _{n-1} }` when `n > 0` and exactly `{ 0 }` when `n = 0`; it never
produces the empty braced group `{ }`. -/
theorem indexedInitializerList_spec_correct (n : Nat) :
    ML99_indexedInitializerList n =
      "\x7b" :: ((if n = 0 then ["0"]
                  else commaJoin ((List.range n).map argName)) ++ ["\x7d"]) ∧
    ML99_indexedInitializerList n ≠ ["\x7b", "\x7d"] := by
  have hmain : ML99_indexedInitializerList n =
      "\x7b" :: ((if n = 0 then ["0"]
                  else commaJoin ((List.range n).map argName)) ++ ["\x7d"]) := by
    rcases n with _ | m
    · rfl
    · rw [ML99_indexedInitializerList, ML99_PRIV_INDEXED_ITEMS]
      have hne : ML99_NAT_EQ (m + 1) 0 = false := by simp [ML99_NAT_EQ]
      rw [hne, repeat_indexedItem_eq, List.range_succ_eq_map, List.map_cons,
        flatten_comma_eq, variadicsTail_comma, ML99_braced]
      simp
  refine ⟨hmain, ?_⟩
  rw [hmain]
  rcases n with _ | m
  · simp
  · rw [List.range_succ_eq_map, List.map_cons]
    obtain ⟨t, ht⟩ := commaJoin_cons_ex (argName 0) ((List.map Nat.succ (List.range m)).map argName)
    rw [ht]
    intro hcontra
    rw [argName] at hcontra
    have h2 := congrArg (fun l => l.get? 1) hcontra
    simp at h2
    exact absurd h2 (by decide)

/-- The meaning of a C statement over an abstract program state `σ`: the final
state together with the number of times the terminal (following) statement was
executed; `none` models running out of the loop fuel, which never happens for
the single-pass loops generated by the statement-chaining macros. -/
def Stmt (σ : Type) : Type := σ → Option (σ × Nat)

/-- Fuel-bounded semantics of the C loop `for (<already run>; guard; update) body`:
after the initializer has run (the start state is the caller's), the guard is
tested; while it holds, the body runs and then the update runs. The `Nat`
component accumulates the body's reported terminal-statement executions. -/
def cFor {β : Type} (guard : β → Bool) (update : β → β) (body : β → Option (β × Nat)) :
    Nat → β → Option (β × Nat)
  | 0, _ => none
  | fuel + 1, s =>
    if guard s then
      match body s with
      | none => none
      | some (s1, k1) =>
        match cFor guard update body fuel (update s1) with
        | none => none
        | some (s2, k2) => some (s2, k1 + k2)
    else
      some (s, 0)

/-- `ML99_INTRODUCE_VAR_TO_STMT(...)`:
`for (__VA_ARGS__, *ml99_priv_break = (void *)0; ml99_priv_break != (void *)1;
ml99_priv_break = (void *)1) <next>`. The variable definitions of the first
for-clause are the state effect `initVars`; the pointer `ml99_priv_break` is
modelled by its value, `0` for `(void *)0` and `1` for `(void *)1`. The
surrounding `ML99_PRIV_SHADOWS` only emits diagnostic pragmas and has no
statement semantics. -/
def ML99_INTRODUCE_VAR_TO_STMT {σ : Type} (initVars : σ → σ) (next : Stmt σ) : Stmt σ :=
  fun s =>
    (cFor (fun st : σ × Nat => st.2 != 1) (fun st => (st.1, 1))
        (fun st => (next st.1).map (fun p => ((p.1, st.2), p.2)))
        2 (initVars s, 0)).map (fun p => (p.1.1, p.2))

/-- `ML99_INTRODUCE_NON_NULL_PTR_TO_STMT(ty, name, init)`:
`for (ty *name = (init); name != (void *)0; name = (void *)0) <next>`. The C
expression `init` is modelled as its state effect together with the pointer
value it returns (`0` standing for the null pointer), evaluated exactly once
in the first for-clause. -/
def ML99_INTRODUCE_NON_NULL_PTR_TO_STMT {σ : Type} (ptrInit : σ → σ × Nat) (next : Stmt σ) :
    Stmt σ :=
  fun s =>
    (cFor (fun st : σ × Nat => st.2 != 0) (fun st => (st.1, 0))
        (fun st => (next st.1).map (fun p => ((p.1, st.2), p.2)))
        2 (ptrInit s)).map (fun p => (p.1.1, p.2))

/-- `ML99_CHAIN_EXPR_STMT(expr)`:
`for (int ml99_priv_expr_stmt_break = ((expr), 0);
ml99_priv_expr_stmt_break != 1; ml99_priv_expr_stmt_break = 1) <next>`. The C
expression `expr` is modelled as its state effect together with its value; the
comma operator discards the value and initializes the loop variable to `0`. -/
def ML99_CHAIN_EXPR_STMT {σ : Type} (expr : σ → σ × Int) (next : Stmt σ) : Stmt σ :=
  fun s =>
    (cFor (fun st : σ × Int => st.2 != 1) (fun st => (st.1, 1))
        (fun st => (next st.1).map (fun p => ((p.1, st.2), p.2)))
        2 ((expr s).1, 0)).map (fun p => (p.1.1, p.2))

/-- The terminal statement closing a chain: it runs its state effect and
reports one execution of itself. -/
def terminalStmt {σ : Type} (S : σ → σ) : Stmt σ :=
  fun s => some (S s, 1)

/-- One statement-chaining combinator of gen.h, with the data its expansion
depends on. -/
inductive Chainer (σ : Type) where
  | introduceVar (initVars : σ → σ)
  | introduceNonNullPtr (ptrInit : σ → σ × Nat)
  | chainExprStmt (expr : σ → σ × Int)

/-- Wrap the statement following a chaining combinator into the combinator's
expansion. -/
def applyChainer {σ : Type} : Chainer σ → Stmt σ → Stmt σ
  | Chainer.introduceVar iv, next => ML99_INTRODUCE_VAR_TO_STMT iv next
  | Chainer.introduceNonNullPtr pi2, next => ML99_INTRODUCE_NON_NULL_PTR_TO_STMT pi2 next
  | Chainer.chainExprStmt e, next => ML99_CHAIN_EXPR_STMT e next

/-- A finite sequence of statement-chaining combinators followed by a final
statement, as in the header's documentation: each combinator absorbs the
statement formed by the rest of the chain. -/
def runChain {σ : Type} : List (Chainer σ) → Stmt σ → Stmt σ
  | [], S => S
  | c :: cs, S => applyChainer c (runChain cs S)

/-- Every `ML99_INTRODUCE_NON_NULL_PTR_TO_STMT` in the chain has an `init`
expression that evaluates to a non-null pointer. -/
def PtrInitsNonNull {σ : Type} : List (Chainer σ) → Prop
  | [] => True
  | Chainer.introduceNonNullPtr pi2 :: cs => (∀ s, (pi2 s).2 ≠ 0) ∧ PtrInitsNonNull cs
  | Chainer.introduceVar _ :: cs => PtrInitsNonNull cs
  | Chainer.chainExprStmt _ :: cs => PtrInitsNonNull cs

theorem introduceVar_run {σ : Type} (iv : σ → σ) (next : Stmt σ) (s s' : σ) (k : Nat)
    (h : next (iv s) = some (s', k)) :
    ML99_INTRODUCE_VAR_TO_STMT iv next s = some (s', k) := by
  simp [ML99_INTRODUCE_VAR_TO_STMT, cFor, h]

theorem chainExpr_run {σ : Type} (expr : σ → σ × Int) (next : Stmt σ) (s : σ) :
    ML99_CHAIN_EXPR_STMT expr next s = next (expr s).1 := by
  rcases h : next (expr s).1 with _ | ⟨s', k⟩ <;>
    simp [ML99_CHAIN_EXPR_STMT, cFor, h]

theorem ptr_run_null {σ : Type} (ptrInit : σ → σ × Nat) (next : Stmt σ) (s : σ)
    (h : (ptrInit s).2 = 0) :
    ML99_INTRODUCE_NON_NULL_PTR_TO_STMT ptrInit next s = some ((ptrInit s).1, 0) := by
  rcases hi : ptrInit s with ⟨s1, p⟩
  rw [hi] at h
  simp at h
  subst h
  simp [ML99_INTRODUCE_NON_NULL_PTR_TO_STMT, cFor, hi]

theorem ptr_run_nonnull {σ : Type} (ptrInit : σ → σ × Nat) (next : Stmt σ) (s s' : σ) (k : Nat)
    (hp : (ptrInit s).2 ≠ 0) (h : next (ptrInit s).1 = some (s', k)) :
    ML99_INTRODUCE_NON_NULL_PTR_TO_STMT ptrInit next s = some (s', k) := by
  rcases hi : ptrInit s with ⟨s1, p⟩
  rw [hi] at hp h
  simp at hp h
  simp [ML99_INTRODUCE_NON_NULL_PTR_TO_STMT, cFor, hi, hp, h]

/-- A statement runs its terminal statement exactly once from every start
state. -/
def ExactlyOnce {σ : Type} (t : Stmt σ) : Prop :=
  ∀ s, ∃ s', t s = some (s', 1)

theorem runChain_exactlyOnce {σ : Type} (chain : List (Chainer σ)) (S : σ → σ)
    (h : PtrInitsNonNull chain) : ExactlyOnce (runChain chain (terminalStmt S)) := by
  induction chain with
  | nil => exact fun s => ⟨S s, rfl⟩
  | cons c cs ih =>
    cases c with
    | introduceVar iv =>
      rw [PtrInitsNonNull] at h
      intro s
      obtain ⟨s', hs⟩ := ih h (iv s)
      exact ⟨s', introduceVar_run iv _ s s' 1 hs⟩
    | introduceNonNullPtr pi2 =>
      rw [PtrInitsNonNull] at h
      intro s
      obtain ⟨s', hs⟩ := ih h.2 (pi2 s).1
      exact ⟨s', ptr_run_nonnull pi2 _ s s' 1 (h.1 s) hs⟩
    | chainExprStmt e =>
      rw [PtrInitsNonNull] at h
      intro s
      obtain ⟨s', hs⟩ := ih h (e s).1
      exact ⟨s', (chainExpr_run e _ s).trans hs⟩

/-- C1 counterexample: the claim as stated, with no precondition on the
`init` arguments, is false at a concrete input: the chain consisting of a
single `ML99_INTRODUCE_NON_NULL_PTR_TO_STMT` whose `init` evaluates to the
null pointer makes the terminal statement run zero times, not once. -/
theorem chain_not_unconditionally_once :
    runChain [Chainer.introduceNonNullPtr (fun b : Bool => (b, 0))] (terminalStmt id) true
        = some (true, 0) ∧
    ¬ ∃ s' : Bool,
      runChain [Chainer.introduceNonNullPtr (fun b : Bool => (b, 0))] (terminalStmt id) true
        = some (s', 1) := by
  constructor
  · rfl
  · rintro ⟨s', hs⟩
    have : some (true, 0) = some (s', 1) :=
      (rfl : runChain [Chainer.introduceNonNullPtr (fun b : Bool => (b, 0))]
        (terminalStmt id) true = some (true, 0)).symm.trans hs
    simp at this

/-- C1 (amended): for any finite sequence of statement-chaining combinators
(ML99_INTRODUCE_VAR_TO_STMT, ML99_INTRODUCE_NON_NULL_PTR_TO_STMT,
ML99_CHAIN_EXPR_STMT) followed by a terminal statement S, each entry into the
enclosing scope executes S exactly once — not zero times and not twice —
regardless of the length of the chain, provided that the `init` expression of
every ML99_INTRODUCE_NON_NULL_PTR_TO_STMT in the chain evaluates to a
non-null pointer. -/
theorem chain_exactly_once_of_nonNull {σ : Type} (chain : List (Chainer σ)) (S : σ → σ)
    (h : PtrInitsNonNull chain) (s : σ) :
    ∃ s', runChain chain (terminalStmt S) s = some (s', 1) :=
  runChain_exactlyOnce chain S h s

/-- Witness for the amended C1 theorem: a concrete three-combinator chain
over the state space `Bool`, entered at `true`, runs its terminal statement
exactly once. -/
theorem chain_exactly_once_of_nonNull_witness :
    ∃ s', runChain
        [Chainer.introduceVar (fun b : Bool => !b),
         Chainer.chainExprStmt (fun b => (b, 0)),
         Chainer.introduceNonNullPtr (fun b => (b, 1))]
        (terminalStmt id) true = some (s', 1) :=
  chain_exactly_once_of_nonNull _ id
    (by rw [PtrInitsNonNull, PtrInitsNonNull, PtrInitsNonNull, PtrInitsNonNull]
        exact ⟨fun s => one_ne_zero, trivial⟩)
    true

/-- C9: `ML99_CHAIN_EXPR_STMT(expr)` evaluates `expr` exactly once — its
state effect is applied exactly once in the composition — strictly before the
following statement runs, the following statement need not reference `expr`
or its result, and the value of `expr` (the second component of `expr s`) is
discarded: the behaviour is exactly `next` run on the post-`expr` state. -/
theorem chainExprStmt_once_before {σ : Type} (expr : σ → σ × Int) (next : Stmt σ) (s : σ) :
    ML99_CHAIN_EXPR_STMT expr next s = next (expr s).1 :=
  chainExpr_run expr next s

/-- C10: for `ML99_INTRODUCE_NON_NULL_PTR_TO_STMT(ty, name, init)`, the
exactly-once execution of the following statement holds only under the
precondition that `init` evaluates to a non-null pointer: the loop guard
compares the introduced pointer against null, so when `init` evaluates to the
null pointer the following statement executes zero times and no error is
raised, while for a non-null `init` the following statement's single run is
passed through unchanged. -/
theorem nonNullPtr_null_zero_runs {σ : Type} (ptrInit : σ → σ × Nat) (next : Stmt σ) (s : σ) :
    ((ptrInit s).2 = 0 →
      ML99_INTRODUCE_NON_NULL_PTR_TO_STMT ptrInit next s = some ((ptrInit s).1, 0)) ∧
    ((ptrInit s).2 ≠ 0 → ∀ s' k, next (ptrInit s).1 = some (s', k) →
      ML99_INTRODUCE_NON_NULL_PTR_TO_STMT ptrInit next s = some (s', k)) :=
  ⟨fun h => ptr_run_null ptrInit next s h,
   fun hp s' k h => ptr_run_nonnull ptrInit next s s' k hp h⟩

/-- Witness for the C10 theorem: with a null-returning `init` over `Bool`,
the combinator completes with zero executions of the following statement. -/
theorem nonNullPtr_null_zero_runs_witness :
    ML99_INTRODUCE_NON_NULL_PTR_TO_STMT (fun b : Bool => (b, 0)) (terminalStmt id) true
      = some (true, 0) :=
  (nonNullPtr_null_zero_runs (fun b : Bool => (b, 0)) (terminalStmt id) true).1 rfl

/-- C6: the conditional-branch primitive evaluates only the selected branch:
in the counter-driven generators, when `n = 0` the selected `empty_case`
fragment is produced even when the recursive repeat branch is invalid — the
untaken branch is never rewritten, so it causes no failure — and when `n ≠ 0`
only the repeat branch is rewritten, even when the `empty_case` branch is
invalid; with both branches valid the pending-term conditional computes
exactly `ML99_PRIV_INDEXED_ITEMS`. -/
theorem indexedItems_branch_nonstrict (n : Nat) (e r : Fragment) :
    ML99_PRIV_INDEXED_ITEMS_t 0 (PendingTerm.ok e) PendingTerm.invalid = some e ∧
    (n ≠ 0 → ML99_PRIV_INDEXED_ITEMS_t n PendingTerm.invalid (PendingTerm.ok r) = some r) ∧
    ML99_PRIV_INDEXED_ITEMS_t n (PendingTerm.ok e)
        (PendingTerm.ok (ML99_variadicsTail (ML99_repeat n ML99_PRIV_indexedItem)))
      = some (ML99_PRIV_INDEXED_ITEMS n e) := by
  refine ⟨rfl, fun hn => ?_, ?_⟩
  · have : ML99_NAT_EQ n 0 = false := by simp [ML99_NAT_EQ, hn]
    simp [ML99_PRIV_INDEXED_ITEMS_t, ML99_PRIV_IF, rewriteTerm, this]
  · rcases hn : ML99_NAT_EQ n 0 with _ | _ <;>
      simp [ML99_PRIV_INDEXED_ITEMS_t, ML99_PRIV_IF, rewriteTerm, ML99_PRIV_INDEXED_ITEMS, hn]

/-- Witness for the C6 theorem at `n = 1`: the invalid `empty_case` branch is
untaken and causes no failure. -/
theorem indexedItems_branch_nonstrict_witness :
    ML99_PRIV_INDEXED_ITEMS_t 1 PendingTerm.invalid (PendingTerm.ok ["_0"]) = some ["_0"] :=
  (indexedItems_branch_nonstrict 1 [] ["_0"]).2.1 (by decide)

/-- C7: the declaration formatters are pure functions of their
already-finalized arguments, producing the fixed textual shapes —
`ML99_struct(name, body)` yields `struct name { body }`, likewise `union` and
`enum` and their anonymous counterparts without the name, `ML99_braced(body)`
yields `{ body }`, and `ML99_typedef(name, body)` yields
`typedef body name;` — and invoking any of them twice with structurally equal
inputs yields structurally equal output. -/
theorem decl_formatters_shape_and_pure (ident body ident2 body2 : Fragment) :
    ML99_braced body = ["\x7b"] ++ body ++ ["\x7d"] ∧
    ML99_typedef ident body = ["typedef"] ++ body ++ ident ++ [";"] ∧
    ML99_struct ident body = ["struct"] ++ ident ++ ["\x7b"] ++ body ++ ["\x7d"] ∧
    ML99_anonStruct body = ["struct"] ++ ["\x7b"] ++ body ++ ["\x7d"] ∧
    ML99_union ident body = ["union"] ++ ident ++ ["\x7b"] ++ body ++ ["\x7d"] ∧
    ML99_anonUnion body = ["union"] ++ ["\x7b"] ++ body ++ ["\x7d"] ∧
    ML99_enum ident body = ["enum"] ++ ident ++ ["\x7b"] ++ body ++ ["\x7d"] ∧
    ML99_anonEnum body = ["enum"] ++ ["\x7b"] ++ body ++ ["\x7d"] ∧
    (ident = ident2 → body = body2 →
      ML99_braced body = ML99_braced body2 ∧
      ML99_typedef ident body = ML99_typedef ident2 body2 ∧
      ML99_struct ident body = ML99_struct ident2 body2 ∧
      ML99_anonStruct body = ML99_anonStruct body2 ∧
      ML99_union ident body = ML99_union ident2 body2 ∧
      ML99_anonUnion body = ML99_anonUnion body2 ∧
      ML99_enum ident body = ML99_enum ident2 body2 ∧
      ML99_anonEnum body = ML99_anonEnum body2) := by
  refine ⟨?_, ?_, ?_, ?_, ?_, ?_, ?_, ?_, ?_⟩
  · simp [ML99_braced]
  · simp [ML99_typedef]
  · simp [ML99_struct, ML99_braced]
  · simp [ML99_anonStruct, ML99_braced]
  · simp [ML99_union, ML99_braced]
  · simp [ML99_anonUnion, ML99_braced]
  · simp [ML99_enum, ML99_braced]
  · simp [ML99_anonEnum, ML99_braced]
  · rintro rfl rfl
    exact ⟨rfl, rfl, rfl, rfl, rfl, rfl, rfl, rfl⟩

/-- Witness for the C7 theorem: the struct shape from the header's own
documentation example. -/
theorem decl_formatters_shape_and_pure_witness :
    ML99_struct ["Point"] ["int", "x", ",", "y", ";"]
      = ["struct"] ++ ["Point"] ++ ["\x7b"] ++ ["int", "x", ",", "y", ";"] ++ ["\x7d"] :=
  (decl_formatters_shape_and_pure ["Point"] ["int", "x", ",", "y", ";"]
    ["Point"] ["int", "x", ",", "y", ";"]).2.2.1

/-- C8: every declaration formatter has the registered arity the spec states:
the anonymous forms (`ML99_anonStruct`, `ML99_anonUnion`, `ML99_anonEnum`)
and `ML99_braced` have arity 1, the named forms (`ML99_typedef`,
`ML99_struct`, `ML99_union`, `ML99_enum`) have arity 2, and the dispatcher
validates a call against the registered arity before rewriting: it succeeds
exactly when the argument count equals the arity. -/
theorem decl_formatters_arity :
    (ML99_anonStruct_ARITY = 1 ∧ ML99_anonUnion_ARITY = 1 ∧ ML99_anonEnum_ARITY = 1 ∧
     ML99_braced_ARITY = 1) ∧
    (ML99_typedef_ARITY = 2 ∧ ML99_struct_ARITY = 2 ∧ ML99_union_ARITY = 2 ∧
     ML99_enum_ARITY = 2) ∧
    (∀ (a : Nat) (impl : List Fragment → Fragment) (args : List Fragment),
      (dispatch a impl args).isSome = true ↔ args.length = a) := by
  refine ⟨⟨rfl, rfl, rfl, rfl⟩, ⟨rfl, rfl, rfl, rfl⟩, fun a impl args => ?_⟩
  rw [dispatch]
  split
  · simp [*]
  · simp [*]

/-- Witness for the C8 theorem: a two-argument call of the arity-2 `struct`
formatter passes the dispatcher's arity validation. -/
theorem decl_formatters_arity_witness :
    (dispatch ML99_struct_ARITY (fun args => ML99_struct (args.headD []) (args.getD 1 []))
      [["Point"], ["int", "x", ";"]]).isSome = true :=
  (decl_formatters_arity.2.2 ML99_struct_ARITY _ _).mpr rfl
